import Mathlib

/-!
Verification of the wg-manager synchronization/reconciliation engine.

The embedding follows `src/main.go` (the reconciliation scheduler, the
`synchronize` full-sync routine and the `handleEvent` event dispatcher) and
the portforward rule manager exercised by
`src/portforward/portforward_test.go`.  The `wireguard` and `portforward`
package bodies are not part of the visible sources, so their operations are
modelled from the specification (§4.1, §4.2) and checked against the
concrete fixtures of the integration test where those are visible.
-/

namespace WgManager

/-- A desired-state peer record as consumed from the Peer Source
(spec §3, §6): public key, IPv4/IPv6 addresses in CIDR form and an
unordered collection of forwarded ports. -/
structure WireguardPeer where
  ipv4 : String
  ipv6 : String
  ports : List Nat
  pubkey : String
deriving DecidableEq, Repr

/-- An event delivered by the Event Subscriber: an action string and a peer
record (`subscriber.WireguardEvent` in `main.go`). -/
structure WireguardEvent where
  action : String
  peer : WireguardPeer
deriving DecidableEq, Repr

/-! ## Portforward rule manager

Modelled from the spec: the `portforward` package implementation is not
among the visible sources (only its integration test is), so the manager is
modelled from spec §4.2 — rule shape, append/delete/clear-then-install
semantics — and validated below against the rule-string fixtures of
`portforward_test.go`.  Ipset membership carries no claim, so the firewall
state is the NAT rule table only. -/

inductive Proto where
  | tcp
  | udp
deriving DecidableEq, Repr

inductive Family where
  | v4
  | v6
deriving DecidableEq, Repr

/-- One DNAT rule: protocol chain, address family (selecting the ipset it
matches against), the sorted de-duplicated destination-port list and the
bare destination address. -/
structure Rule where
  proto : Proto
  family : Family
  dports : List Nat
  dest : String
deriving DecidableEq, Repr

/-- The scoped firewall state the manager owns: the rule table of the two
prefixed NAT chains, listed in chain-listing order. -/
structure FW where
  rules : List Rule
deriving DecidableEq, Repr

/-- Strip the prefix length from a CIDR string: "10.99.0.1/32" becomes
"10.99.0.1" (spec: redirect to the peer's bare address) — everything before
the first slash. -/
def bareAddress (s : String) : String :=
  String.mk (s.toList.takeWhile (fun c => !(c == '/')))

/-- Ports sorted ascending with duplicates removed (spec §4.2 rule shape). -/
def sortedDedupPorts (l : List Nat) : List Nat :=
  (List.insertionSort (· ≤ ·) l).dedup

/-- The comma-joined multiport list of a rule. -/
def dportsJoined (l : List Nat) : String :=
  String.intercalate "," (l.map toString)

/-- Modelled from the spec: the rule set implied by one peer — for each
address family the peer has an address in, and only if it has at least one
port, one TCP and one UDP DNAT rule. -/
def peerRules (p : WireguardPeer) : List Rule :=
  if p.ports.isEmpty then []
  else
    (if p.ipv4 = "" then []
     else [⟨Proto.tcp, Family.v4, sortedDedupPorts p.ports, bareAddress p.ipv4⟩,
           ⟨Proto.udp, Family.v4, sortedDedupPorts p.ports, bareAddress p.ipv4⟩]) ++
    (if p.ipv6 = "" then []
     else [⟨Proto.tcp, Family.v6, sortedDedupPorts p.ports, bareAddress p.ipv6⟩,
           ⟨Proto.udp, Family.v6, sortedDedupPorts p.ports, bareAddress p.ipv6⟩])

/-- Whether a rule is destined to one of the peer's (present) addresses. -/
def ruleForPeerAddress (p : WireguardPeer) (r : Rule) : Bool :=
  (!(p.ipv4 == "") && r.dest == bareAddress p.ipv4) ||
  (!(p.ipv6 == "") && r.dest == bareAddress p.ipv6)

/-- Modelled from the spec: `AddPortforwarding(peer)` appends the peer's
rule set to the chains. -/
def AddPortforwarding (p : WireguardPeer) (fw : FW) : FW :=
  ⟨fw.rules ++ peerRules p⟩

/-- Modelled from the spec: `RemovePortforwarding(peer)` deletes exactly
the rules matching the peer's current addresses. -/
def RemovePortforwarding (p : WireguardPeer) (fw : FW) : FW :=
  ⟨fw.rules.filter (fun r => !(ruleForPeerAddress p r))⟩

/-- Modelled from the spec: `UpdateSinglePeerPortforwarding(peer)` clears
the existing rules for the peer's addresses first, then installs the rule
set implied by the peer's current ports. -/
def UpdateSinglePeerPortforwarding (p : WireguardPeer) (fw : FW) : FW :=
  AddPortforwarding p (RemovePortforwarding p fw)

/-- The concatenated rule sets of all peers of a list. -/
def rawRules (L : List WireguardPeer) : List Rule :=
  L.foldr (fun p acc => peerRules p ++ acc) []

/-- The duplicate-free desired rule table implied by a peer list. -/
def desiredRules (L : List WireguardPeer) : List Rule :=
  (rawRules L).dedup

/-- Modelled from the spec: `UpdatePortforwarding(desiredList)` is full
reconciliation — rules of absent or port-less peers are removed and rules
of all peers with ports are (re)installed; the resulting table is the
deterministic, duplicate-free rule set implied by the list. -/
def UpdatePortforwarding (L : List WireguardPeer) (_fw : FW) : FW :=
  ⟨desiredRules L⟩

/-- Manager construction parameters (`portforward.New` in `main.go`):
chain name stem and the two ipset names. -/
structure PFConfig where
  chainStem : String
  ipset4 : String
  ipset6 : String
deriving DecidableEq, Repr

def protoChainSuffix : Proto → String
  | Proto.tcp => "TCP"
  | Proto.udp => "UDP"

def protoMatchName : Proto → String
  | Proto.tcp => "tcp"
  | Proto.udp => "udp"

def familyIpset (cfg : PFConfig) : Family → String
  | Family.v4 => cfg.ipset4
  | Family.v6 => cfg.ipset6

/-- The bit-exact iptables text form of a rule (spec §6), as listed by
`getRules` in `portforward_test.go`. -/
def ruleText (cfg : PFConfig) (r : Rule) : String :=
  "-A " ++ cfg.chainStem ++ "_" ++ protoChainSuffix r.proto ++
  " -p " ++ protoMatchName r.proto ++
  " -m set --match-set " ++ familyIpset cfg r.family ++
  " dst -m multiport --dports " ++ dportsJoined r.dports ++
  " -j DNAT --to-destination " ++ r.dest

/-- The configuration used by the integration test fixtures. -/
def testCfg : PFConfig :=
  ⟨"PORTFORWARDING", "PORTFORWARDING_IPV4", "PORTFORWARDING_IPV6"⟩

/-- The peer of `apiFixture` in `portforward_test.go`. -/
def fixturePeer : WireguardPeer :=
  ⟨"10.99.0.1/32", "fc00:bbbb:bbbb:bb01::1/128", [4321, 1234],
   "YWFhYWFhYWFhYWFhYWFhYWFhYWFhYWFhYWFhYWFhYWFh"⟩

/-- The peer after the port change of the "update rules for single peer"
subtest (`rulesUpdatedPortsFixture`). -/
def fixturePeerUpdated : WireguardPeer :=
  { fixturePeer with ports := [1234, 4322, 1337] }

/-! ## WireGuard peer manager

Modelled from the spec: the `wireguard` package implementation is not among
the visible sources, so the kernel peer table and its operations are
modelled from spec §4.1.  Only the aspects the scheduler claims depend on
are needed: the keyed peer table, add/remove/reconcile, and the
connected-keys output. -/

/-- One installed device peer: its public key, its allowed-IP set derived
from the record's addresses, and whether the device reports a recent
handshake for it. -/
structure DevicePeer where
  pubkey : String
  allowedIPs : List String
  recentHandshake : Bool
deriving DecidableEq, Repr

/-- The kernel device peer table owned by the WireGuard manager. -/
structure WgDevice where
  peers : List DevicePeer
deriving DecidableEq, Repr

/-- Allowed-IPs derived from the peer record's IPv4/IPv6 fields. -/
def allowedIPsOf (p : WireguardPeer) : List String :=
  ([p.ipv4, p.ipv6]).filter (fun a => !(a == ""))

/-- Modelled from the spec: `AddPeer` installs the key and allowed-IPs;
re-adding an existing peer updates its allowed-IPs rather than erroring. -/
def AddPeer (p : WireguardPeer) (d : WgDevice) : WgDevice :=
  if d.peers.any (fun q => q.pubkey == p.pubkey) then
    ⟨d.peers.map (fun q =>
      if q.pubkey == p.pubkey then { q with allowedIPs := allowedIPsOf p } else q)⟩
  else
    ⟨d.peers ++ [⟨p.pubkey, allowedIPsOf p, false⟩]⟩

/-- Modelled from the spec: `RemovePeer` deletes the public key from the
device; absence is not an error. -/
def RemovePeer (p : WireguardPeer) (d : WgDevice) : WgDevice :=
  ⟨d.peers.filter (fun q => !(q.pubkey == p.pubkey))⟩

/-- Modelled from the spec: `UpdatePeers` full reconciliation — peers in
both the desired list and the device are left untouched, missing ones are
added, stale ones removed; returns the desired keys whose device state
reports a recent handshake. -/
def UpdatePeers (L : List WireguardPeer) (d : WgDevice) : WgDevice × List String :=
  let desiredKeys := L.map (fun p => p.pubkey)
  let kept := d.peers.filter (fun q => desiredKeys.contains q.pubkey)
  let existingKeys := d.peers.map (fun q => q.pubkey)
  let added := (L.filter (fun p => !(existingKeys.contains p.pubkey))).map
      (fun p => (⟨p.pubkey, allowedIPsOf p, false⟩ : DevicePeer))
  let d' : WgDevice := ⟨kept ++ added⟩
  (d', (d'.peers.filter (fun q => q.recentHandshake)).map (fun q => q.pubkey))

/-! ## The two managers driven by the scheduler -/

/-- Combined mutable state of the two managers the scheduler drives
(globals `wg` and `pf` in `main.go`). -/
structure Managers where
  wg : WgDevice
  pf : FW
deriving DecidableEq, Repr

/-- `handleEvent` from `main.go`: dispatch on the event's action string.
ADD adds to the WireGuard manager then to the Portforward manager; REMOVE
removes from both in the same order; UPDATE_PORTS touches only the
Portforward manager; anything else is ignored. -/
def handleEvent (ev : WireguardEvent) (m : Managers) : Managers :=
  match ev.action with
  | "ADD" => { m with wg := AddPeer ev.peer m.wg, pf := AddPortforwarding ev.peer m.pf }
  | "REMOVE" => { m with wg := RemovePeer ev.peer m.wg, pf := RemovePortforwarding ev.peer m.pf }
  | "UPDATE_PORTS" => { m with pf := UpdateSinglePeerPortforwarding ev.peer m.pf }
  | _ => m

/-- Observable outcome of one `synchronize` call: the manager state after
the cycle, the error log lines, the error metrics counters incremented,
and the connected-keys report that reached the Peer Source (if any). -/
structure SyncOutcome where
  managers : Managers
  errLog : List String
  errCounters : List String
  posted : Option (List String)
deriving DecidableEq, Repr

/-- `synchronize` from `main.go`.  `fetch` is the result of
`a.GetWireguardPeers()` and `post` the result of
`a.PostWireguardConnections` as a function of the keys being reported —
the API transport is an external collaborator, so its outcomes are inputs
of the embedding. -/
def synchronize (fetch : Except String (List WireguardPeer))
    (post : List String → Except String Unit) (m : Managers) : SyncOutcome :=
  match fetch with
  | Except.error e =>
      ⟨m, ["error getting peers " ++ e], ["error_getting_peers"], none⟩
  | Except.ok peers =>
      let r := UpdatePeers peers m.wg
      let connectedKeys := r.2
      let m' : Managers := ⟨r.1, UpdatePortforwarding peers m.pf⟩
      match post connectedKeys with
      | Except.error e =>
          ⟨m', ["error posting connections " ++ e], ["error_posting_connections"], none⟩
      | Except.ok _ =>
          ⟨m', [], [], some connectedKeys⟩

/-! ## Startup sequence and configuration (`main` in `main.go`) -/

/-- Duration-valued configuration consumed by the core, in seconds, with
the flag defaults of `main.go`: `-interval` (1 minute), `-delay` (45 s),
`-api-timeout` (30 s).  All three are user-configurable flags. -/
structure Config where
  interval : Nat
  delay : Nat
  apiTimeout : Nat
deriving DecidableEq, Repr

/-- The flag defaults of `main.go`. -/
def defaultConfig : Config := ⟨60, 45, 30⟩

/-- `main.go` builds the API client with `http.Client\x7bTimeout: *apiTimeout\x7d`:
every control-plane request carries the configured timeout, whatever its
value. -/
def apiClientTimeout (c : Config) : Nat := c.apiTimeout

/-- The externally observable actions of `main` between initialization and
entering the scheduler loop. -/
inductive StartupAction where
  | initialSync
  | subscribeEvents
  | startTicker
deriving DecidableEq, Repr

/-- Outcome of the startup sequence: the ordered trace of actions taken,
whether the process died with `log.Fatal`, and the manager state on
entering the loop. -/
structure StartupResult where
  trace : List StartupAction
  fatal : Bool
  managers : Managers
deriving DecidableEq, Repr

/-- The startup sequence of `main` after the managers are initialized:
run one `synchronize` (whatever its outcome), then subscribe to the event
channel — `log.Fatal` on subscription error — then start the jittered
ticker and the worker loop. -/
def mainStartup (fetch : Except String (List WireguardPeer))
    (post : List String → Except String Unit) (subRes : Except String Unit)
    (m0 : Managers) : StartupResult :=
  let m1 := (synchronize fetch post m0).managers
  match subRes with
  | Except.error _ => ⟨[StartupAction.initialSync, StartupAction.subscribeEvents], true, m1⟩
  | Except.ok _ =>
      ⟨[StartupAction.initialSync, StartupAction.subscribeEvents, StartupAction.startTicker],
       false, m1⟩

/-! ## The reconciliation scheduler

The worker goroutine of `main.go` is a single loop selecting between the
event channel and the jittered ticker channel, running each unit of work
synchronously.  Both channels are unbuffered: an event delivery blocks its
sender until the worker is at the `select`, and the jitter ticker sends
non-blockingly, so a tick that fires while the worker is busy is dropped.
The loop is embedded as a labelled transition system over the scheduler
state. -/

/-- One reconciliation unit of work: a full sync or one event. -/
inductive UnitOfWork where
  | fullSync
  | handle (ev : WireguardEvent)
deriving DecidableEq, Repr

/-- Scheduler state: the units the worker is currently running (the code
has a single worker, but the model lets the invariant that at most one
unit is ever in flight be proved rather than assumed), the events whose
senders are blocked on the unbuffered channel, the managers, and a count
of dropped ticks. -/
structure SchedState where
  running : List UnitOfWork
  pending : List WireguardEvent
  managers : Managers
  droppedTicks : Nat
deriving DecidableEq, Repr

/-- Effect of running one unit of work to completion on the managers. -/
def applyUnit (fetch : Except String (List WireguardPeer))
    (post : List String → Except String Unit) : UnitOfWork → Managers → Managers
  | UnitOfWork.fullSync, m => (synchronize fetch post m).managers
  | UnitOfWork.handle ev, m => handleEvent ev m

/-- Labels of scheduler transitions. -/
inductive SchedLabel where
  | tick
  | eventArrival (ev : WireguardEvent)
  | eventDelivery (ev : WireguardEvent)
  | completion (u : UnitOfWork)
deriving DecidableEq, Repr

/-- Small-step semantics of the worker loop in `main.go`: a tick fired at
an idle worker starts a full sync; a tick fired at a busy worker is
dropped (only the drop count changes); an event arrival parks its sender
on the unbuffered channel; an event is delivered and starts its handler
only when the worker is idle; a running unit completes atomically,
applying its whole effect to the managers. -/
inductive SchedStep (fetch : Except String (List WireguardPeer))
    (post : List String → Except String Unit) :
    SchedLabel → SchedState → SchedState → Prop where
  | tickWhenIdle (s : SchedState) (h : s.running = []) :
      SchedStep fetch post SchedLabel.tick s { s with running := [UnitOfWork.fullSync] }
  | tickWhenBusy (s : SchedState) (u : UnitOfWork) (rest : List UnitOfWork)
      (h : s.running = u :: rest) :
      SchedStep fetch post SchedLabel.tick s { s with droppedTicks := s.droppedTicks + 1 }
  | eventArrives (s : SchedState) (ev : WireguardEvent) :
      SchedStep fetch post (SchedLabel.eventArrival ev) s
        { s with pending := s.pending ++ [ev] }
  | eventDelivered (s : SchedState) (ev : WireguardEvent) (rest : List WireguardEvent)
      (h : s.running = []) (hp : s.pending = ev :: rest) :
      SchedStep fetch post (SchedLabel.eventDelivery ev) s
        { s with running := [UnitOfWork.handle ev], pending := rest }
  | completes (s : SchedState) (u : UnitOfWork) (h : s.running = [u]) :
      SchedStep fetch post (SchedLabel.completion u) s
        { s with running := [], managers := applyUnit fetch post u s.managers }

/-- The scheduler's initial state: idle worker, empty channel. -/
def initSched (m0 : Managers) : SchedState := ⟨[], [], m0, 0⟩

/-- States reachable by the scheduler from startup. -/
def SchedReachable (fetch : Except String (List WireguardPeer))
    (post : List String → Except String Unit) (m0 : Managers) (s : SchedState) : Prop :=
  Relation.ReflTransGen (fun a b => ∃ l, SchedStep fetch post l a b) (initSched m0) s

/-! ## Shared helper definitions and lemmas -/

/-- Managers with an empty device peer table and an empty rule table. -/
def emptyManagers : Managers := ⟨⟨[]⟩, ⟨[]⟩⟩

/-- Every rule a peer implies is destined to one of that peer's
addresses. -/
lemma mem_peerRules_address {p : WireguardPeer} {r : Rule}
    (hr : r ∈ peerRules p) : ruleForPeerAddress p r = true := by
  unfold peerRules at hr
  by_cases h0 : p.ports.isEmpty
  · simp [h0] at hr
  · by_cases h4 : p.ipv4 = "" <;> by_cases h6 : p.ipv6 = ""
    · simp [h0, h4, h6] at hr
    · simp [h0, h4, h6] at hr
      rcases hr with rfl | rfl <;> simp [ruleForPeerAddress, h4, h6]
    · simp [h0, h4, h6] at hr
      rcases hr with rfl | rfl <;> simp [ruleForPeerAddress, h4, h6]
    · simp [h0, h4, h6] at hr
      rcases hr with rfl | rfl | rfl | rfl <;> simp [ruleForPeerAddress, h4, h6]

/-- Sorting-then-deduplicating ports is invariant under permutation of the
input port collection. -/
lemma sortedDedupPorts_perm {l l' : List Nat} (h : List.Perm l l') :
    sortedDedupPorts l = sortedDedupPorts l' := by
  unfold sortedDedupPorts
  congr 1
  have hperm : List.Perm (List.insertionSort (· ≤ ·) l) (List.insertionSort (· ≤ ·) l') :=
    ((List.perm_insertionSort (· ≤ ·) l).trans h).trans
      (List.perm_insertionSort (· ≤ ·) l').symm
  exact List.eq_of_perm_of_sorted hperm
    (List.sorted_insertionSort (· ≤ ·) l) (List.sorted_insertionSort (· ≤ ·) l')

/-- A peer's implied rule set depends only on its addresses and its port
collection viewed as an unordered collection. -/
lemma peerRules_congr {p q : WireguardPeer} (h4 : p.ipv4 = q.ipv4)
    (h6 : p.ipv6 = q.ipv6) (hp : List.Perm p.ports q.ports) :
    peerRules p = peerRules q := by
  have hE : p.ports.isEmpty = q.ports.isEmpty := by
    rcases hP : p.ports with _ | ⟨a, as⟩ <;> rcases hQ : q.ports with _ | ⟨b, bs⟩ <;>
      simp_all
  unfold peerRules
  rw [hE, h4, h6, sortedDedupPorts_perm hp]

/-! ## Claim theorems -/

/-- Claim C2: a full-sync cycle whose fetch of the desired peer list fails
records the error counter, logs the error, and aborts with neither the
WireGuard manager nor the Portforward manager mutated: the manager state
after the failed cycle equals the state before it. -/
theorem synchronize_fetch_failure_no_mutation (e : String)
    (post : List String → Except String Unit) (m : Managers) :
    (synchronize (Except.error e) post m).managers = m ∧
    (synchronize (Except.error e) post m).errLog = ["error getting peers " ++ e] ∧
    (synchronize (Except.error e) post m).errCounters = ["error_getting_peers"] ∧
    (synchronize (Except.error e) post m).posted = none :=
  ⟨rfl, rfl, rfl, rfl⟩

/-- Claim C3: on a successful fetch the cycle reconciles the WireGuard
manager (capturing connectedKeys), reconciles the Portforward manager with
the same list, and reports connectedKeys; a failed report is recorded and
logged but the applied manager state is kept (no rollback). -/
theorem synchronize_success_order_no_rollback (peers : List WireguardPeer)
    (post : List String → Except String Unit) (m : Managers) :
    (synchronize (Except.ok peers) post m).managers =
      ⟨(UpdatePeers peers m.wg).1, UpdatePortforwarding peers m.pf⟩ ∧
    (post (UpdatePeers peers m.wg).2 = Except.ok () →
      (synchronize (Except.ok peers) post m).posted = some (UpdatePeers peers m.wg).2 ∧
      (synchronize (Except.ok peers) post m).errLog = []) ∧
    (∀ e, post (UpdatePeers peers m.wg).2 = Except.error e →
      (synchronize (Except.ok peers) post m).errLog = ["error posting connections " ++ e] ∧
      (synchronize (Except.ok peers) post m).errCounters = ["error_posting_connections"] ∧
      (synchronize (Except.ok peers) post m).posted = none) := by
  refine ⟨?_, ?_, ?_⟩
  · unfold synchronize
    cases hpost : post (UpdatePeers peers m.wg).2 <;> simp [hpost]
  · intro hpost
    unfold synchronize
    simp [hpost]
  · intro e hpost
    unfold synchronize
    simp [hpost]

/-- Witness for C3 at concrete inputs: a succeeding report is posted, and a
failing report still leaves the reconciled manager state in place. -/
theorem synchronize_success_order_no_rollback_witness :
    (synchronize (Except.ok [fixturePeer]) (fun _ => Except.ok ()) emptyManagers).posted =
      some ((UpdatePeers [fixturePeer] emptyManagers.wg).2) ∧
    (synchronize (Except.ok [fixturePeer]) (fun _ => Except.error "boom") emptyManagers).managers =
      ⟨(UpdatePeers [fixturePeer] emptyManagers.wg).1,
       UpdatePortforwarding [fixturePeer] emptyManagers.pf⟩ :=
  ⟨((synchronize_success_order_no_rollback [fixturePeer] (fun _ => Except.ok ())
      emptyManagers).2.1 rfl).1,
   (synchronize_success_order_no_rollback [fixturePeer] (fun _ => Except.error "boom")
      emptyManagers).1⟩

/-- Claim C4: an ADD event applies AddPeer and then AddPortforwarding, a
REMOVE event applies RemovePeer and then RemovePortforwarding, and an event
with any unrecognized action mutates neither manager. -/
theorem handleEvent_dispatch (ev : WireguardEvent) (m : Managers) :
    (ev.action = "ADD" →
      handleEvent ev m = ⟨AddPeer ev.peer m.wg, AddPortforwarding ev.peer m.pf⟩) ∧
    (ev.action = "REMOVE" →
      handleEvent ev m = ⟨RemovePeer ev.peer m.wg, RemovePortforwarding ev.peer m.pf⟩) ∧
    (ev.action ≠ "ADD" → ev.action ≠ "REMOVE" → ev.action ≠ "UPDATE_PORTS" →
      handleEvent ev m = m) := by
  refine ⟨?_, ?_, ?_⟩
  · intro h
    unfold handleEvent
    rw [h]
    rfl
  · intro h
    unfold handleEvent
    rw [h]
    rfl
  · intro h1 h2 h3
    unfold handleEvent
    rw [show (match ev.action with
        | "ADD" => { m with wg := AddPeer ev.peer m.wg, pf := AddPortforwarding ev.peer m.pf }
        | "REMOVE" => { m with wg := RemovePeer ev.peer m.wg, pf := RemovePortforwarding ev.peer m.pf }
        | "UPDATE_PORTS" => { m with pf := UpdateSinglePeerPortforwarding ev.peer m.pf }
        | _ => m) = m from by
      split
      · simp_all
      · simp_all
      · simp_all
      · rfl]

/-- Witness for C4: the three dispatch branches at concrete events. -/
theorem handleEvent_dispatch_witness :
    handleEvent ⟨"ADD", fixturePeer⟩ emptyManagers =
      ⟨AddPeer fixturePeer emptyManagers.wg, AddPortforwarding fixturePeer emptyManagers.pf⟩ ∧
    handleEvent ⟨"REMOVE", fixturePeer⟩ emptyManagers =
      ⟨RemovePeer fixturePeer emptyManagers.wg, RemovePortforwarding fixturePeer emptyManagers.pf⟩ ∧
    handleEvent ⟨"BOGUS", fixturePeer⟩ emptyManagers = emptyManagers :=
  ⟨(handleEvent_dispatch ⟨"ADD", fixturePeer⟩ emptyManagers).1 rfl,
   (handleEvent_dispatch ⟨"REMOVE", fixturePeer⟩ emptyManagers).2.1 rfl,
   (handleEvent_dispatch ⟨"BOGUS", fixturePeer⟩ emptyManagers).2.2
     (by decide) (by decide) (by decide)⟩

/-- Claim C5: an UPDATE_PORTS event mutates only the Portforward manager,
via UpdateSinglePeerPortforwarding; the WireGuard manager's peer table is
left completely unchanged. -/
theorem updatePorts_event_frame (ev : WireguardEvent) (m : Managers)
    (h : ev.action = "UPDATE_PORTS") :
    (handleEvent ev m).wg = m.wg ∧
    handleEvent ev m = { m with pf := UpdateSinglePeerPortforwarding ev.peer m.pf } := by
  have hm : handleEvent ev m = { m with pf := UpdateSinglePeerPortforwarding ev.peer m.pf } := by
    unfold handleEvent
    rw [h]
    rfl
  exact ⟨by rw [hm], hm⟩

/-- Witness for C5 at a concrete UPDATE_PORTS event. -/
theorem updatePorts_event_frame_witness :
    (handleEvent ⟨"UPDATE_PORTS", fixturePeerUpdated⟩ emptyManagers).wg = emptyManagers.wg :=
  (updatePorts_event_frame ⟨"UPDATE_PORTS", fixturePeerUpdated⟩ emptyManagers rfl).1

/-- The firewall state of the "update rules for single peer" subtest:
AddPortforwarding of the fixture peer (ports 4321, 1234) on a clean table,
then UpdateSinglePeerPortforwarding with ports 1234, 4322, 1337. -/
def c6Result : FW :=
  UpdateSinglePeerPortforwarding fixturePeerUpdated (AddPortforwarding fixturePeer ⟨[]⟩)

/-- Claim C6: UpdateSinglePeerPortforwarding leaves the firewall holding
exactly the rule set implied by the peer's current ports — the rules for
the peer's addresses are exactly the implied set, all other rules are
untouched; in particular after adding ports 4321,1234 and updating to
1234,4322,1337 exactly one TCP and one UDP rule per address family remain,
each with dports "1234,1337,4322", and no rule references port 4321. -/
theorem updateSinglePeer_exact_ruleset (p : WireguardPeer) (fw : FW) :
    (UpdateSinglePeerPortforwarding p fw).rules.filter
        (fun r => ruleForPeerAddress p r) = peerRules p ∧
    (UpdateSinglePeerPortforwarding p fw).rules.filter
        (fun r => !(ruleForPeerAddress p r)) =
      fw.rules.filter (fun r => !(ruleForPeerAddress p r)) ∧
    c6Result.rules.map (ruleText testCfg) =
      ["-A PORTFORWARDING_TCP -p tcp -m set --match-set PORTFORWARDING_IPV4 dst -m multiport --dports 1234,1337,4322 -j DNAT --to-destination 10.99.0.1",
       "-A PORTFORWARDING_UDP -p udp -m set --match-set PORTFORWARDING_IPV4 dst -m multiport --dports 1234,1337,4322 -j DNAT --to-destination 10.99.0.1",
       "-A PORTFORWARDING_TCP -p tcp -m set --match-set PORTFORWARDING_IPV6 dst -m multiport --dports 1234,1337,4322 -j DNAT --to-destination fc00:bbbb:bbbb:bb01::1",
       "-A PORTFORWARDING_UDP -p udp -m set --match-set PORTFORWARDING_IPV6 dst -m multiport --dports 1234,1337,4322 -j DNAT --to-destination fc00:bbbb:bbbb:bb01::1"] ∧
    (c6Result.rules.filter (fun r => r.proto == Proto.tcp && r.family == Family.v4)).length = 1 ∧
    (c6Result.rules.filter (fun r => r.proto == Proto.udp && r.family == Family.v4)).length = 1 ∧
    (c6Result.rules.filter (fun r => r.proto == Proto.tcp && r.family == Family.v6)).length = 1 ∧
    (c6Result.rules.filter (fun r => r.proto == Proto.udp && r.family == Family.v6)).length = 1 ∧
    c6Result.rules.all (fun r => !(r.dports.contains 4321)) = true ∧
    c6Result.rules.all (fun r => dportsJoined r.dports == "1234,1337,4322") = true := by
  refine ⟨?_, ?_, by decide, by decide, by decide, by decide, by decide, by decide, by decide⟩
  · show ((fw.rules.filter (fun r => !(ruleForPeerAddress p r))) ++ peerRules p).filter
        (fun r => ruleForPeerAddress p r) = peerRules p
    rw [List.filter_append]
    have h1 : (fw.rules.filter (fun r => !(ruleForPeerAddress p r))).filter
        (fun r => ruleForPeerAddress p r) = [] := by
      apply List.eq_nil_iff_forall_not_mem.mpr
      intro r hr
      have h2 := List.mem_filter.mp hr
      have h3 := (List.mem_filter.mp h2.1).2
      rw [h2.2] at h3
      simp at h3
    have h4 : (peerRules p).filter (fun r => ruleForPeerAddress p r) = peerRules p :=
      List.filter_eq_self.mpr (fun r hr => mem_peerRules_address hr)
    rw [h1, h4, List.nil_append]
  · show ((fw.rules.filter (fun r => !(ruleForPeerAddress p r))) ++ peerRules p).filter
        (fun r => !(ruleForPeerAddress p r)) =
      fw.rules.filter (fun r => !(ruleForPeerAddress p r))
    rw [List.filter_append]
    have h1 : (fw.rules.filter (fun r => !(ruleForPeerAddress p r))).filter
        (fun r => !(ruleForPeerAddress p r)) =
        fw.rules.filter (fun r => !(ruleForPeerAddress p r)) :=
      List.filter_eq_self.mpr (fun r hr => (List.mem_filter.mp hr).2)
    have h2 : (peerRules p).filter (fun r => !(ruleForPeerAddress p r)) = [] := by
      apply List.eq_nil_iff_forall_not_mem.mpr
      intro r hr
      have h3 := List.mem_filter.mp hr
      rw [mem_peerRules_address h3.1] at h3
      exact (by simp at h3)
    rw [h1, h2, List.append_nil]

/-- Claim C7: full portforwarding reconciliation is idempotent — a second
application with the same list changes nothing — and its resulting rule
table is duplicate-free and a function only of the peers' addresses and
(unordered) port collections. -/
theorem updatePortforwarding_idempotent_pure (L L' : List WireguardPeer) (fw fw' : FW) :
    UpdatePortforwarding L (UpdatePortforwarding L fw) = UpdatePortforwarding L fw ∧
    (UpdatePortforwarding L fw).rules.Nodup ∧
    (List.Forall₂
        (fun p q => p.ipv4 = q.ipv4 ∧ p.ipv6 = q.ipv6 ∧ List.Perm p.ports q.ports) L L' →
      UpdatePortforwarding L fw = UpdatePortforwarding L' fw') := by
  refine ⟨rfl, List.nodup_dedup _, ?_⟩
  intro h
  unfold UpdatePortforwarding desiredRules
  have hraw : rawRules L = rawRules L' := by
    induction h with
    | nil => rfl
    | cons hpq _ ih =>
        obtain ⟨h4, h6, hp⟩ := hpq
        show peerRules _ ++ rawRules _ = peerRules _ ++ rawRules _
        rw [peerRules_congr h4 h6 hp, ih]
  rw [hraw]

/-- The fixture peer with its port collection listed in the other order. -/
def fixturePeerSwapped : WireguardPeer := { fixturePeer with ports := [1234, 4321] }

/-- Witness for C7: reconciliation with the fixture peer's ports permuted
and a different prior firewall state yields the identical rule table. -/
theorem updatePortforwarding_idempotent_pure_witness :
    UpdatePortforwarding [fixturePeer] ⟨[]⟩ =
      UpdatePortforwarding [fixturePeerSwapped]
        ⟨[⟨Proto.tcp, Family.v4, [80], "192.0.2.7"⟩]⟩ :=
  (updatePortforwarding_idempotent_pure [fixturePeer] [fixturePeerSwapped] ⟨[]⟩
      ⟨[⟨Proto.tcp, Family.v4, [80], "192.0.2.7"⟩]⟩).2.2
    (List.Forall₂.cons ⟨rfl, rfl, by decide⟩ List.Forall₂.nil)

/-- A rule already destined to the fixture peer's IPv4 address, installed
before the round trip starts. -/
def strayRule : Rule := ⟨Proto.tcp, Family.v4, [80], "10.99.0.1"⟩

/-- Counterexample to C8 as stated for every firewall state: starting from
a table already holding a rule destined to the peer's address, the
add-then-remove round trip deletes that pre-existing rule as well, so the
table is not restored. -/
theorem addRemove_roundTrip_counterexample :
    RemovePortforwarding fixturePeer (AddPortforwarding fixturePeer ⟨[strayRule]⟩) ≠
      (⟨[strayRule]⟩ : FW) := by decide

/-- Claim C8 (amended): for every firewall state holding no rule destined
to the peer's addresses, AddPortforwarding followed by
RemovePortforwarding restores the rule table exactly. -/
theorem addRemove_roundTrip_fresh (p : WireguardPeer) (fw : FW)
    (h : ∀ r ∈ fw.rules, ruleForPeerAddress p r = false) :
    RemovePortforwarding p (AddPortforwarding p fw) = fw := by
  cases fw with
  | mk rules =>
    show FW.mk ((rules ++ peerRules p).filter (fun r => !(ruleForPeerAddress p r))) = FW.mk rules
    apply congrArg
    rw [List.filter_append]
    have h1 : rules.filter (fun r => !(ruleForPeerAddress p r)) = rules :=
      List.filter_eq_self.mpr (fun r hr => by simp [h r hr])
    have h2 : (peerRules p).filter (fun r => !(ruleForPeerAddress p r)) = [] := by
      apply List.eq_nil_iff_forall_not_mem.mpr
      intro r hr
      have h3 := List.mem_filter.mp hr
      rw [mem_peerRules_address h3.1] at h3
      exact (by simp at h3)
    rw [h1, h2, List.append_nil]

/-- Witness for the amended C8 round trip on a clean table. -/
theorem addRemove_roundTrip_fresh_witness :
    RemovePortforwarding fixturePeer (AddPortforwarding fixturePeer ⟨[]⟩) = ⟨[]⟩ :=
  addRemove_roundTrip_fresh fixturePeer ⟨[]⟩ (by simp)

/-- A configuration a user can select with `-interval 1m -api-timeout 2m`:
nothing in `main.go` validates the timeout against the interval. -/
def longTimeoutConfig : Config := ⟨60, 45, 120⟩

/-- Counterexample to C9 as stated for every configuration: with the
user-selectable `-api-timeout` of 120 s against the default 60 s interval,
the API client's hard timeout is not shorter than the sync interval. -/
theorem apiTimeout_not_always_short :
    ¬ (apiClientTimeout longTimeoutConfig < longTimeoutConfig.interval) := by decide

/-- Claim C9 (amended): under the default configuration the API client's
hard timeout (30 s) is shorter than the sync interval (60 s); the timeout
is attached to every control-plane call whatever the configuration; and a
cycle whose fetch fails (e.g. times out) is abandoned with the managers
untouched, leaving the next trigger to retry. -/
theorem apiTimeout_default_short (c : Config) :
    apiClientTimeout defaultConfig < defaultConfig.interval ∧
    apiClientTimeout c = c.apiTimeout ∧
    (∀ e post m, (synchronize (Except.error e) post m).managers = m) :=
  ⟨by decide, rfl, fun _ _ _ => rfl⟩

/-- Claim C10: at startup exactly one full synchronization runs before the
event subscription is established and before the ticker starts; a failed
initial synchronization is not fatal, while a failed initial subscription
terminates the process. -/
theorem startup_sync_once_then_subscribe (fetch : Except String (List WireguardPeer))
    (post : List String → Except String Unit) (subRes : Except String Unit)
    (m0 : Managers) :
    (mainStartup fetch post subRes m0).trace.head? = some StartupAction.initialSync ∧
    (mainStartup fetch post subRes m0).trace.count StartupAction.initialSync = 1 ∧
    (subRes = Except.ok () →
      (mainStartup fetch post subRes m0).fatal = false ∧
      (mainStartup fetch post subRes m0).trace =
        [StartupAction.initialSync, StartupAction.subscribeEvents, StartupAction.startTicker]) ∧
    (∀ e, subRes = Except.error e →
      (mainStartup fetch post subRes m0).fatal = true ∧
      StartupAction.startTicker ∉ (mainStartup fetch post subRes m0).trace) ∧
    (∀ e, fetch = Except.error e →
      (mainStartup fetch post subRes m0).managers = m0) := by
  refine ⟨?_, ?_, ?_, ?_, ?_⟩
  · cases subRes <;> rfl
  · cases subRes <;> rfl
  · intro h
    rw [h]
    exact ⟨rfl, rfl⟩
  · intro e h
    rw [h]
    refine ⟨rfl, ?_⟩
    simp [mainStartup]
  · intro e h
    cases subRes <;> (rw [h]; rfl)

/-- Witness for C10: a failed initial fetch leaves the process running with
the managers untouched, while a failed subscription is fatal. -/
theorem startup_sync_once_then_subscribe_witness :
    (mainStartup (Except.error "timeout") (fun _ => Except.ok ()) (Except.ok ())
        emptyManagers).fatal = false ∧
    (mainStartup (Except.error "timeout") (fun _ => Except.ok ()) (Except.ok ())
        emptyManagers).managers = emptyManagers ∧
    (mainStartup (Except.ok []) (fun _ => Except.ok ()) (Except.error "mq down")
        emptyManagers).fatal = true :=
  ⟨((startup_sync_once_then_subscribe (Except.error "timeout") (fun _ => Except.ok ())
      (Except.ok ()) emptyManagers).2.2.1 rfl).1,
   (startup_sync_once_then_subscribe (Except.error "timeout") (fun _ => Except.ok ())
      (Except.ok ()) emptyManagers).2.2.2.2 "timeout" rfl,
   ((startup_sync_once_then_subscribe (Except.ok []) (fun _ => Except.ok ())
      (Except.error "mq down") emptyManagers).2.2.2.1 "mq down" rfl).1⟩

/-- In every reachable scheduler state the worker has at most one unit of
work in flight. -/
lemma sched_running_length_le_one (fetch : Except String (List WireguardPeer))
    (post : List String → Except String Unit) (m0 : Managers) (s : SchedState)
    (hs : SchedReachable fetch post m0 s) : s.running.length ≤ 1 := by
  induction hs with
  | refl => simp [initSched]
  | tail _ hstep ih =>
      obtain ⟨l, hstep⟩ := hstep
      cases hstep <;> simp_all

/-- Claim C1: at most one reconciliation unit of work is in flight in any
reachable scheduler state; the managers change only when the single
running unit completes (one trigger is consumed and run to completion at a
time); and a full-sync tick that fires while the worker is busy is dropped
— the step changes nothing but the drop counter, queueing no work. -/
theorem scheduler_serializes_and_drops_busy_ticks
    (fetch : Except String (List WireguardPeer))
    (post : List String → Except String Unit) (m0 : Managers) (s : SchedState)
    (hs : SchedReachable fetch post m0 s) :
    s.running.length ≤ 1 ∧
    (∀ s' u rest, s.running = u :: rest →
      SchedStep fetch post SchedLabel.tick s s' →
      s' = { s with droppedTicks := s.droppedTicks + 1 }) ∧
    (∀ l s', SchedStep fetch post l s s' → s'.managers ≠ s.managers →
      ∃ u, l = SchedLabel.completion u ∧ s.running = [u] ∧ s'.running = [] ∧
        s'.managers = applyUnit fetch post u s.managers) := by
  refine ⟨sched_running_length_le_one fetch post m0 s hs, ?_, ?_⟩
  · intro s' u rest hrun hstep
    cases hstep with
    | tickWhenIdle _ h => rw [h] at hrun; exact absurd hrun (by simp)
    | tickWhenBusy _ _ _ _ => rfl
  · intro l s' hstep hneq
    cases hstep with
    | tickWhenIdle _ h => exact absurd rfl hneq
    | tickWhenBusy _ _ _ _ => exact absurd rfl hneq
    | eventArrives _ _ => exact absurd rfl hneq
    | eventDelivered _ _ _ _ _ => exact absurd rfl hneq
    | completes _ u h => exact ⟨u, rfl, h, rfl, rfl⟩

/-- A reachable state with the worker busy on a full sync: the initial
state after one tick arriving at the idle worker. -/
def busySched : SchedState := ⟨[UnitOfWork.fullSync], [], emptyManagers, 0⟩

/-- Witness for C1 at a concrete reachable state: with the worker busy,
its in-flight work is a single unit, and a tick firing now is dropped —
the successor state differs only in the drop counter. -/
theorem scheduler_serializes_and_drops_busy_ticks_witness :
    busySched.running.length ≤ 1 ∧
    (⟨[UnitOfWork.fullSync], [], emptyManagers, 1⟩ : SchedState) =
      { busySched with droppedTicks := busySched.droppedTicks + 1 } :=
  ⟨(scheduler_serializes_and_drops_busy_ticks (Except.error "e") (fun _ => Except.ok ())
      emptyManagers busySched
      (Relation.ReflTransGen.tail Relation.ReflTransGen.refl
        ⟨SchedLabel.tick, SchedStep.tickWhenIdle (initSched emptyManagers) rfl⟩)).1,
   (scheduler_serializes_and_drops_busy_ticks (Except.error "e") (fun _ => Except.ok ())
      emptyManagers busySched
      (Relation.ReflTransGen.tail Relation.ReflTransGen.refl
        ⟨SchedLabel.tick, SchedStep.tickWhenIdle (initSched emptyManagers) rfl⟩)).2.1
     ⟨[UnitOfWork.fullSync], [], emptyManagers, 1⟩ UnitOfWork.fullSync [] rfl
     (SchedStep.tickWhenBusy busySched UnitOfWork.fullSync [] rfl)⟩

end WgManager
